import Mathlib

/-!
A verification development for the skincare-analysis service: a shallow
embedding of the upload-validation-and-storage pipeline
(`app/services/image_service.py`, `app/utils/validators.py`) and of the
deterministic mock-analysis engine (`app/services/analysis_service.py`),
together with theorems settling the specified properties.

Modelling conventions:
- The on-disk store is an association list from path strings to byte lists;
  `open(p, "wb").write(c)` is `FS.write`, `Path.unlink` is `FS.unlink`,
  `Path.exists` is `FS.pathExists`.
- External effects are parameters: the `python-magic` MIME sniffer is a
  function `sniff : List Nat → Except String String` (error = the message of
  the exception it raised), possible I/O failures of the write and of the
  unlink are `Option String` oracles, the generated uuid-derived identifier
  and the clock are explicit arguments.
- Python exceptions are the explicit error type `PyErr`
  (`ValidationError` vs any other `OSError`-like exception); a handler that
  itself raises is modelled by returning the handler's error, matching
  Python's semantics where an exception raised inside an `except` block
  propagates and replaces the one being handled.
- Python floats are modelled as rationals; `round(x, 2)` is `round2`.
- The stdlib Mersenne-Twister generator `random.Random(seed)` is abstracted
  as a family `fam : Nat → Nat → Nat → Nat` giving, for each seed, the value
  of the i-th `_randbelow(n)` call; the contract `_randbelow n < n` is the
  hypothesis `GoodFamily`. `choice` and `sample` are embedded on top of it
  following CPython (`sample` takes the pool branch since the population has
  8 ≤ 21 elements).
-/

/-! ## Configuration (`app/config.py`) -/

def UPLOAD_DIR : String := "./uploads"

def MAX_FILE_SIZE : Nat := 5 * 1024 * 1024

def ALLOWED_EXTENSIONS : List String := ["jpg", "jpeg", "png"]

def ALLOWED_MIME_TYPES : List String := ["image/jpeg", "image/png"]

/-! ## Python exceptions -/

/-- A raised Python exception: the service distinguishes its own
`ValidationError` from every other exception (I/O errors etc.); the payload
is `str(e)`. -/
inductive PyErr where
  | validationError (msg : String)
  | osError (msg : String)
deriving Repr, DecidableEq

/-! ## `pathlib` helpers: `Path(s).suffix`, `Path(s).stem` -/

/-- The final path component: the characters after the last slash
(`PurePath.name`). -/
def pathName (s : String) : String :=
  ⟨(s.data.reverse.takeWhile (fun c => c ≠ '/')).reverse⟩

/-- `PurePath(s).suffix`: from the last dot of the name to its end, provided
that dot is neither the first nor the last character of the name; otherwise
the empty string. -/
def pathSuffix (s : String) : String :=
  let rev := (pathName s).data.reverse
  let postR := rev.takeWhile (fun c => c ≠ '.')
  if postR.length = rev.length then ""
  else if postR.length = 0 then ""
  else if postR.length + 1 = rev.length then ""
  else ⟨'.' :: postR.reverse⟩

/-- `PurePath(s).stem`: the name with the suffix removed. -/
def pathStem (s : String) : String :=
  let name := pathName s
  ⟨name.data.take (name.data.length - (pathSuffix s).data.length)⟩

/-- Python `str.lower()`: lower-case character by character. -/
def strLower (s : String) : String :=
  ⟨s.data.map Char.toLower⟩

/-! ## Validators (`app/utils/validators.py`) -/

/-- `validate_file_extension`: lower-case the suffix, strip leading dots,
require membership in the allowed-extension set. -/
def validate_file_extension (filename : String) : Except PyErr Bool :=
  let extension : String := ⟨(strLower (pathSuffix filename)).data.dropWhile (fun c => c = '.')⟩
  if ALLOWED_EXTENSIONS.contains extension then .ok true
  else .error (.validationError
    ("Invalid file type. Allowed types: " ++ String.intercalate ", " ALLOWED_EXTENSIONS))

/-- `validate_file_size`: reject byte lengths above the configured maximum. -/
def validate_file_size (file_size : Nat) : Except PyErr Bool :=
  if file_size > MAX_FILE_SIZE then
    .error (.validationError "File too large. Maximum size: 5.0MB")
  else .ok true

/-! ## The durable store -/

/-- The file store: an association list path ↦ byte content; the most recent
entry for a path shadows older ones. -/
abbrev FS : Type := List (String × List Nat)

/-- Read the bytes at a path. -/
def FS.read : FS → String → Option (List Nat)
  | [], _ => none
  | (q, c) :: rest, p => if q = p then some c else FS.read rest p

/-- `Path.exists()`. -/
def FS.pathExists (fs : FS) (p : String) : Bool :=
  (FS.read fs p).isSome

/-- `open(p, "wb"); write(c)`: create or replace the file at `p`. -/
def FS.write (fs : FS) (p : String) (c : List Nat) : FS :=
  (p, c) :: fs

/-- `Path.unlink()`: remove every entry at `p`. -/
def FS.unlink : FS → String → FS
  | [], _ => []
  | (q, c) :: rest, p => if q = p then FS.unlink rest p else (q, c) :: FS.unlink rest p

/-- The `try` body of `validate_file_content`: read the file, sniff its MIME
type with `magic`, require membership in the allowed set.  An error carries
`str(e)` of the exception raised (reading a missing path raises; the
sniffer may raise; a disallowed type raises the inner `ValidationError`
message). -/
def validate_file_content_inner (sniff : List Nat → Except String String)
    (fs : FS) (file_path : String) : Except String (Bool × String) :=
  match FS.read fs file_path with
  | none => .error ("No such file or directory: " ++ file_path)
  | some bytes =>
    match sniff bytes with
    | .error e => .error e
    | .ok mime_type =>
      if ALLOWED_MIME_TYPES.contains mime_type then .ok (true, mime_type)
      else .error "Invalid file content. File must be a valid image (JPEG or PNG)"

/-- `validate_file_content`: the `try` body above runs under a blanket
`except Exception` handler that re-raises every failure — including the
function's own inner `ValidationError` — as
`ValidationError("Error validating file content: " + str(e))`. -/
def validate_file_content (sniff : List Nat → Except String String) (fs : FS)
    (file_path : String) : Except PyErr (Bool × String) :=
  match validate_file_content_inner sniff fs file_path with
  | .ok r => .ok r
  | .error e => .error (.validationError ("Error validating file content: " ++ e))

/-- `validate_image_id`: reject the empty string and strings shorter than 8
characters; nothing else is checked. -/
def validate_image_id (image_id : String) : Except PyErr Bool :=
  if image_id.length = 0 then .error (.validationError "Invalid image_id format")
  else if image_id.length < 8 then .error (.validationError "Invalid image_id format")
  else .ok true

/-! ## Storage manager (`app/services/image_service.py`) -/

/-- The metadata record returned by a successful `save_image`. -/
structure UploadMeta where
  image_id : String
  filename : String
  size : Nat
  uploaded_at : String
deriving Repr, DecidableEq

/-- `ImageService.save_image`, with the external effects explicit:
`sniff` is the MIME sniffer, `image_id` the fresh uuid-derived identifier,
`now` the UTC clock reading, `writeErr`/`unlinkErr` the possible I/O
failures of the write and of the unlink (`none` = the call succeeds).
Returns the Python result (metadata or raised exception) together with the
final store.

Control flow translated from the source: extension check, size check, write,
`validate_file_content`; on a `ValidationError` from the latter the handler
deletes the just-written file and re-raises, on any other exception the
handler deletes and raises `ValidationError("Error saving file: ...")`.  In
either handler, a failure of `unlink` itself propagates (Python replaces the
exception being handled with the one raised inside the handler). -/
def save_image (sniff : List Nat → Except String String) (image_id : String)
    (now : String) (writeErr : Option String) (unlinkErr : Option String)
    (filename : String) (content : List Nat) (fs : FS) :
    Except PyErr UploadMeta × FS :=
  match validate_file_extension filename with
  | .error e => (.error e, fs)
  | .ok _ =>
    let file_size := content.length
    match validate_file_size file_size with
    | .error e => (.error e, fs)
    | .ok _ =>
      let extension := strLower (pathSuffix filename)
      let file_path := UPLOAD_DIR ++ "/" ++ (image_id ++ extension)
      match writeErr with
      | some e =>
        -- `open` created/truncated the file, then the write raised `e`:
        -- handled by the blanket handler (delete, raise ValidationError).
        let fs1 := FS.write fs file_path []
        if FS.pathExists fs1 file_path then
          match unlinkErr with
          | some e2 => (.error (.osError e2), fs1)
          | none => (.error (.validationError ("Error saving file: " ++ e)),
                     FS.unlink fs1 file_path)
        else (.error (.validationError ("Error saving file: " ++ e)), fs1)
      | none =>
        let fs1 := FS.write fs file_path content
        match validate_file_content sniff fs1 file_path with
        | .ok _ =>
          (.ok { image_id := image_id, filename := filename, size := file_size,
                 uploaded_at := now ++ "Z" }, fs1)
        | .error (.validationError m) =>
          if FS.pathExists fs1 file_path then
            match unlinkErr with
            | some e2 => (.error (.osError e2), fs1)
            | none => (.error (.validationError m), FS.unlink fs1 file_path)
          else (.error (.validationError m), fs1)
        | .error (.osError m) =>
          if FS.pathExists fs1 file_path then
            match unlinkErr with
            | some e2 => (.error (.osError e2), fs1)
            | none => (.error (.validationError ("Error saving file: " ++ m)),
                       FS.unlink fs1 file_path)
          else (.error (.validationError ("Error saving file: " ++ m)), fs1)

/-- The `FileNotFoundError` raised by `get_image_path`. -/
inductive LookupErr where
  | fileNotFoundError (image_id : String)
deriving Repr, DecidableEq

/-- The fixed probe order of `get_image_path`. -/
def probeExts : List String := [".jpg", ".jpeg", ".png"]

/-- The literal path `UPLOAD_DIR / f"{image_id}{ext}"` probed by
`get_image_path`. -/
def probePath (image_id ext : String) : String :=
  UPLOAD_DIR ++ "/" ++ (image_id ++ ext)

/-- The probe loop of `get_image_path`. -/
def get_image_path_aux (fs : FS) (image_id : String) : List String → Option String
  | [] => none
  | ext :: rest =>
    let fp := probePath image_id ext
    if FS.pathExists fs fp then some fp else get_image_path_aux fs image_id rest

/-- `ImageService.get_image_path`: probe `image_id` + each extension in the
fixed order, return the first existing path, else raise `FileNotFoundError`. -/
def get_image_path (fs : FS) (image_id : String) : Except LookupErr String :=
  match get_image_path_aux fs image_id probeExts with
  | some p => .ok p
  | none => .error (.fileNotFoundError image_id)

/-- `ImageService.image_exists`. -/
def image_exists (fs : FS) (image_id : String) : Bool :=
  match get_image_path fs image_id with
  | .ok _ => true
  | .error _ => false

/-! ## Analysis engine (`app/services/analysis_service.py`) -/

def SKIN_TYPES : List String := ["Normal", "Oily", "Dry", "Combination", "Sensitive"]

def ISSUES : List String :=
  ["Hyperpigmentation", "Fine Lines", "Acne", "Dark Circles",
   "Redness", "Uneven Texture", "Large Pores", "Dryness"]

def RECOMMENDATIONS : List (String × String) :=
  [("Hyperpigmentation", "Use vitamin C serum for hyperpigmentation"),
   ("Fine Lines", "Apply retinol for fine lines"),
   ("Acne", "Consider salicylic acid for acne treatment"),
   ("Dark Circles", "Use caffeine-based eye cream for dark circles"),
   ("Redness", "Apply soothing niacinamide for redness"),
   ("Uneven Texture", "Use AHA/BHA exfoliant for texture improvement"),
   ("Large Pores", "Try niacinamide to minimize pore appearance"),
   ("Dryness", "Apply hyaluronic acid serum for hydration")]

/-- Dictionary lookup `RECOMMENDATIONS[issue]`. -/
def recOf (issue : String) : Option String :=
  (RECOMMENDATIONS.find? (fun p => p.1 = issue)).map (fun p => p.2)

/-- One generator: draw index ↦ exclusive bound ↦ value of the i-th
`_randbelow(bound)` call. -/
def RandBelow : Type := Nat → Nat → Nat

/-- The stdlib generator family: seed ↦ the draw function of
`random.Random(seed)`. -/
def GenFamily : Type := Nat → RandBelow

/-- The `_randbelow` contract: every draw with a positive bound is below the
bound. -/
def GoodFamily (fam : GenFamily) : Prop :=
  ∀ seed i n, 0 < n → fam seed i n < n

/-- CPython `Random.choice(seq) = seq[self._randbelow(len(seq))]`, consuming
one draw. -/
def pyChoice (rb : RandBelow) (idx : Nat) (seq : List String) : String :=
  seq.getD (rb idx seq.length) ""

/-- One iteration of CPython `Random.sample`'s pool branch, on the live
prefix of the pool: draw `j < live.length`, select `pool[j]`, move the last
live element into slot `j` and shrink the live region by one.  Out-of-range
draws (excluded by `GoodFamily`) fall back to `getD`'s default. -/
def pySampleAux (rb : RandBelow) : Nat → Nat → List String → List String
  | _, 0, _ => []
  | idx, k + 1, live =>
    let m := live.length
    let j := rb idx m
    live.getD j "" ::
      pySampleAux rb (idx + 1) k ((live.set j (live.getD (m - 1) "")).dropLast)

/-- CPython `Random.sample(population, k)` for a population of at most 21
elements (the pool branch), with `idx` the index of its first draw. -/
def pySample (rb : RandBelow) (idx : Nat) (population : List String) (k : Nat) :
    List String :=
  pySampleAux rb idx k population

/-- Insertion of a string into a ≤-sorted list. -/
def insertLe (a : String) : List String → List String
  | [] => [a]
  | b :: t => if a ≤ b then a :: b :: t else b :: insertLe a t

/-- `list.sort()` on strings: the unique ≤-sorted permutation (computed here
by insertion sort; CPython's stable sort returns the same list since ≤ on
strings is a total order). -/
def sortLe : List String → List String
  | [] => []
  | a :: t => insertLe a (sortLe t)

/-- Python `round(q, 2)` on the exact rational value. -/
def round2 (q : ℚ) : ℚ :=
  (round (q * 100) : ℤ) / 100

/-- The seed-determined part of the report: skin type, sorted issues,
unrounded confidence, recommendations — translated line by line from the
body of the `with Image.open(...)` block. -/
def analyzeCore (fam : GenFamily) (seed : Nat) :
    String × List String × ℚ × List String :=
  let rb := fam seed
  let skin_type := pyChoice rb 0 SKIN_TYPES
  let num_issues := 1 + seed % 3
  let issues0 := pySample rb 1 ISSUES num_issues
  let issues := sortLe issues0
  let confidence : ℚ := 3 / 4 + ((seed % 20 : Nat) : ℚ) / 100
  let recommendations := issues.map (fun i => (recOf i).getD "")
  (skin_type, issues, confidence, recommendations)

/-- The fixed fallback used when the image cannot be opened. -/
def fallbackCore : String × List String × ℚ × List String :=
  ("Combination", ["Hyperpigmentation"], 85 / 100,
   [(recOf "Hyperpigmentation").getD ""])

/-- The report returned by `analyze_image`. -/
structure AnalysisReport where
  image_id : String
  skin_type : String
  issues : List String
  confidence : ℚ
  recommendations : List String
  analyzed_at : String
deriving Repr, DecidableEq

/-- `AnalysisService.analyze_image`: `openResult` is the outcome of
`Image.open(image_path)` reading `(width, height)` (`none` = any exception);
`fam` the stdlib generator family; `now` the UTC clock reading.  On success
the seed is `width + height`; on failure the fixed fallback values are used;
either way a report is returned, never an error. -/
def analyze_image (fam : GenFamily) (now : String) (image_path : String)
    (openResult : Option (Nat × Nat)) : AnalysisReport :=
  let core :=
    match openResult with
    | some (width, height) => analyzeCore fam (width + height)
    | none => fallbackCore
  { image_id := pathStem image_path,
    skin_type := core.1,
    issues := core.2.1,
    confidence := round2 core.2.2.1,
    recommendations := core.2.2.2,
    analyzed_at := now ++ "Z" }

/-! ## Generic demo instances used by the closed witnesses -/

/-- A concrete generator family satisfying the `_randbelow` contract, used to
instantiate theorems at concrete inputs. -/
def famDemo : GenFamily := fun seed i n => (seed + i) % n

/-- A sniffer that reports every byte string as `text/plain` (e.g. a text
file renamed to `.jpg`). -/
def sniffText : List Nat → Except String String := fun _ => .ok "text/plain"

/-- A sniffer that reports every byte string as `image/png`. -/
def sniffPng : List Nat → Except String String := fun _ => .ok "image/png"

/-- A store holding one file at the literal traversal path probed for the
identifier `../../etc/passwd`. -/
def demoFS : FS := [("./uploads/../../etc/passwd.jpg", [7])]

/-- Did `save_image` surface a `ValidationError`? -/
def isValidationFailure : Except PyErr UploadMeta → Bool
  | .error (.validationError _) => true
  | _ => false


/-! ## Basic store lemmas -/

theorem FS.read_write_self (fs : FS) (p : String) (c : List Nat) :
    FS.read (FS.write fs p c) p = some c := by
  simp [FS.read, FS.write]

theorem FS.read_write_ne (fs : FS) {p q : String} (h : p ≠ q) (c : List Nat) :
    FS.read (FS.write fs p c) q = FS.read fs q := by
  simp [FS.read, FS.write, h]

theorem FS.read_unlink_self (fs : FS) (p : String) :
    FS.read (FS.unlink fs p) p = none := by
  induction fs with
  | nil => rfl
  | cons hd tl ih =>
    obtain ⟨q, c⟩ := hd
    by_cases h : q = p
    · subst h
      simp [FS.unlink, ih]
    · simp [FS.unlink, FS.read, h, ih]

theorem FS.read_unlink_ne (fs : FS) {p q : String} (h : p ≠ q) :
    FS.read (FS.unlink fs p) q = FS.read fs q := by
  induction fs with
  | nil => rfl
  | cons hd tl ih =>
    obtain ⟨r, c⟩ := hd
    by_cases hr : r = p
    · subst hr
      simp [FS.unlink, FS.read, h, ih]
    · by_cases hq : r = q
      · subst hq
        simp [FS.unlink, hr, FS.read]
      · simp [FS.unlink, hr, FS.read, hq, ih]


/-- `famDemo` satisfies the contract. -/
theorem famDemo_good : GoodFamily famDemo := by
  intro seed i n hn
  exact Nat.mod_lt _ hn

/-! ## Rounding -/

/-- `round(q, 2)` is the identity on values with at most two decimals. -/
theorem round2_add_div (m : Nat) :
    round2 (3 / 4 + (m : ℚ) / 100) = 3 / 4 + (m : ℚ) / 100 := by
  unfold round2
  have h : ((3 : ℚ) / 4 + (m : ℚ) / 100) * 100 = ((75 + m : ℤ) : ℚ) := by
    push_cast
    ring
  rw [h, round_intCast]
  push_cast
  ring

/-! ## Claim C7 -/

/-- C7: when the image cannot be opened, `analyze_image` does not fail; it
returns the fixed fallback report: skin type `Combination`, the single issue
`Hyperpigmentation`, confidence `0.85`, and the matching recommendation
string (being a total function of its embedded inputs, it never surfaces an
error). -/
theorem analyze_fallback_report (fam : GenFamily) (now image_path : String) :
    (analyze_image fam now image_path none).skin_type = "Combination"
    ∧ (analyze_image fam now image_path none).issues = ["Hyperpigmentation"]
    ∧ (analyze_image fam now image_path none).confidence = 85 / 100
    ∧ (analyze_image fam now image_path none).recommendations
        = ["Use vitamin C serum for hyperpigmentation"]
    ∧ (analyze_image fam now image_path none).analyzed_at = now ++ "Z" := by
  refine ⟨rfl, rfl, ?_, rfl, rfl⟩
  show round2 (85 / 100) = 85 / 100
  have h10 : (85 : ℚ) / 100 = 3 / 4 + ((10 : Nat) : ℚ) / 100 := by norm_num
  rw [h10, round2_add_div]

/-! ## Claim C2 -/

/-- C2: every field of the report except `image_id` and `analyzed_at` is a
function of `seed = width + height` alone: two images whose dimension sums
agree receive identical `skin_type`, `issues`, `confidence` and
`recommendations`. -/
theorem analyze_deterministic_in_seed (fam : GenFamily)
    (now1 now2 p1 p2 : String) (w1 h1 w2 h2 : Nat) (hsum : w1 + h1 = w2 + h2) :
    (analyze_image fam now1 p1 (some (w1, h1))).skin_type
      = (analyze_image fam now2 p2 (some (w2, h2))).skin_type
    ∧ (analyze_image fam now1 p1 (some (w1, h1))).issues
      = (analyze_image fam now2 p2 (some (w2, h2))).issues
    ∧ (analyze_image fam now1 p1 (some (w1, h1))).confidence
      = (analyze_image fam now2 p2 (some (w2, h2))).confidence
    ∧ (analyze_image fam now1 p1 (some (w1, h1))).recommendations
      = (analyze_image fam now2 p2 (some (w2, h2))).recommendations := by
  dsimp only [analyze_image]
  rw [hsum]
  exact ⟨rfl, rfl, rfl, rfl⟩

theorem analyze_deterministic_in_seed_witness :
    700 + 700 = 1000 + 400
    ∧ ((analyze_image famDemo "t1" "a.jpg" (some (700, 700))).skin_type
        = (analyze_image famDemo "t2" "b.jpg" (some (1000, 400))).skin_type
      ∧ (analyze_image famDemo "t1" "a.jpg" (some (700, 700))).issues
        = (analyze_image famDemo "t2" "b.jpg" (some (1000, 400))).issues
      ∧ (analyze_image famDemo "t1" "a.jpg" (some (700, 700))).confidence
        = (analyze_image famDemo "t2" "b.jpg" (some (1000, 400))).confidence
      ∧ (analyze_image famDemo "t1" "a.jpg" (some (700, 700))).recommendations
        = (analyze_image famDemo "t2" "b.jpg" (some (1000, 400))).recommendations) :=
  ⟨by decide,
   analyze_deterministic_in_seed famDemo "t1" "t2" "a.jpg" "b.jpg" 700 700 1000 400 (by decide)⟩

/-! ## Claim C6 -/

/-- C6: the confidence equals `0.75 + (seed mod 20)/100` rounded to two
decimals (the rounding is the identity here), always lies in
`[0.75, 0.94]`, and equals exactly `0.75` whenever `seed mod 20 = 0` (in
particular for `seed = 1400`). -/
theorem analyze_confidence_formula (fam : GenFamily) (now image_path : String)
    (w h : Nat) :
    (analyze_image fam now image_path (some (w, h))).confidence
        = round2 (3 / 4 + (((w + h) % 20 : Nat) : ℚ) / 100)
    ∧ (analyze_image fam now image_path (some (w, h))).confidence
        = 3 / 4 + (((w + h) % 20 : Nat) : ℚ) / 100
    ∧ (3 / 4 : ℚ) ≤ (analyze_image fam now image_path (some (w, h))).confidence
    ∧ (analyze_image fam now image_path (some (w, h))).confidence ≤ 94 / 100
    ∧ ((w + h) % 20 = 0 →
        (analyze_image fam now image_path (some (w, h))).confidence = 3 / 4) := by
  have h1 : (analyze_image fam now image_path (some (w, h))).confidence
      = round2 (3 / 4 + (((w + h) % 20 : Nat) : ℚ) / 100) := rfl
  have h2 : (analyze_image fam now image_path (some (w, h))).confidence
      = 3 / 4 + (((w + h) % 20 : Nat) : ℚ) / 100 := h1.trans (round2_add_div _)
  have hm : (w + h) % 20 ≤ 19 := Nat.le_of_lt_succ (Nat.mod_lt _ (by norm_num))
  have hmq : (((w + h) % 20 : Nat) : ℚ) ≤ 19 := by exact_mod_cast hm
  have hmq0 : (0 : ℚ) ≤ (((w + h) % 20 : Nat) : ℚ) := by positivity
  refine ⟨h1, h2, ?_, ?_, ?_⟩
  · rw [h2]; linarith
  · rw [h2]; linarith
  · intro h0
    rw [h2, h0]
    norm_num

theorem analyze_confidence_formula_witness :
    (700 + 700) % 20 = 0
    ∧ (analyze_image famDemo "t" "a.jpg" (some (700, 700))).confidence = 3 / 4 :=
  ⟨by decide,
   (analyze_confidence_formula famDemo "t" "a.jpg" 700 700).2.2.2.2 (by decide)⟩

/-! ## Claim C9 -/

/-- C9: every failure of `validate_file_content` — including a sniffed MIME
type outside the allowed set — surfaces as a `ValidationError` whose message
starts with `Error validating file content:`, because the blanket handler
re-wraps even the function's own inner `ValidationError`; the bare
`Invalid file content` message is never delivered unwrapped. -/
theorem validate_file_content_errors_wrapped
    (sniff : List Nat → Except String String) (fs : FS) (p : String) :
    (∀ e, validate_file_content sniff fs p = .error e →
        ∃ m, e = .validationError ("Error validating file content: " ++ m))
    ∧ (∀ bytes mime_type, FS.read fs p = some bytes → sniff bytes = .ok mime_type →
        ALLOWED_MIME_TYPES.contains mime_type = false →
        validate_file_content sniff fs p = .error (.validationError
          "Error validating file content: Invalid file content. File must be a valid image (JPEG or PNG)")) := by
  constructor
  · intro e he
    unfold validate_file_content at he
    split at he
    · exact Except.noConfusion he
    · exact ⟨_, (Except.error.inj he).symm⟩
  · intro bytes mime_type hread hsniff hc
    have hi : validate_file_content_inner sniff fs p
        = .error "Invalid file content. File must be a valid image (JPEG or PNG)" := by
      unfold validate_file_content_inner
      simp only [hread, hsniff, hc]
      rfl
    unfold validate_file_content
    rw [hi]
    rfl

/-- Closed instance of C9: a text file renamed to an image extension is
rejected with the wrapped message. -/
theorem validate_file_content_errors_wrapped_witness :
    validate_file_content sniffText [("./uploads/a.jpg", [0, 1])] "./uploads/a.jpg"
      = .error (.validationError
          "Error validating file content: Invalid file content. File must be a valid image (JPEG or PNG)") :=
  (validate_file_content_errors_wrapped sniffText [("./uploads/a.jpg", [0, 1])]
      "./uploads/a.jpg").2 [0, 1] "text/plain" (by decide) rfl (by decide)

/-! ## Claim C10 -/

/-- Every path returned by the probe loop is the literal concatenation for
one of the probed extensions. -/
theorem get_image_path_aux_ok (fs : FS) (s : String) :
    ∀ (l : List String) (p : String), get_image_path_aux fs s l = some p →
      ∃ ext, ext ∈ l ∧ p = probePath s ext ∧ FS.pathExists fs p = true := by
  intro l
  induction l with
  | nil =>
    intro p hp
    cases hp
  | cons a t ih =>
    intro p hp
    unfold get_image_path_aux at hp
    by_cases hx : FS.pathExists fs (probePath s a) = true
    · rw [if_pos hx] at hp
      cases hp
      exact ⟨a, List.mem_cons_self a t, rfl, hx⟩
    · rw [if_neg hx] at hp
      obtain ⟨ext, hmem, hpe, hex⟩ := ih p hp
      exact ⟨ext, List.mem_cons_of_mem a hmem, hpe, hex⟩

/-- C10: `validate_image_id` accepts every string of length at least 8 with
no restriction on its characters, and `get_image_path` probes the literal
concatenation `UPLOAD_DIR ++ "/" ++ identifier ++ ext`, so an identifier
containing path-separator sequences passes format validation and is resolved
to a path that can lie outside the upload directory. -/
theorem image_id_format_and_literal_probe (s : String) (h8 : 8 ≤ s.length)
    (fs : FS) :
    validate_image_id s = .ok true
    ∧ ∀ p, get_image_path fs s = .ok p →
        ∃ ext, ext ∈ probeExts ∧ p = UPLOAD_DIR ++ "/" ++ (s ++ ext)
          ∧ FS.pathExists fs p = true := by
  constructor
  · unfold validate_image_id
    rw [if_neg (by omega), if_neg (by omega)]
  · intro p hp
    unfold get_image_path at hp
    rcases haux : get_image_path_aux fs s probeExts with _ | q <;> rw [haux] at hp
    · cases hp
    · cases hp
      exact get_image_path_aux_ok fs s probeExts _ haux

/-- Closed instance of C10: the identifier `../../etc/passwd` (16 chars,
containing separators) passes format validation and resolves to the literal
traversal path outside the upload directory. -/
theorem image_id_format_and_literal_probe_witness :
    8 ≤ ("../../etc/passwd" : String).length
    ∧ validate_image_id "../../etc/passwd" = .ok true
    ∧ (∃ ext, ext ∈ probeExts
        ∧ "./uploads/../../etc/passwd.jpg"
            = UPLOAD_DIR ++ "/" ++ ("../../etc/passwd" ++ ext)
        ∧ FS.pathExists demoFS "./uploads/../../etc/passwd.jpg" = true) :=
  ⟨by decide,
   (image_id_format_and_literal_probe "../../etc/passwd" (by decide) demoFS).1,
   (image_id_format_and_literal_probe "../../etc/passwd" (by decide) demoFS).2
     "./uploads/../../etc/passwd.jpg" rfl⟩

/-! ## Claim C1 -/

/-- Whatever the sniffer does to bytes that are not an allowed image type,
content validation of the just-written file fails with a wrapped
`ValidationError`. -/
theorem validate_file_content_write_fail (sniff : List Nat → Except String String)
    (fs : FS) (p : String) (content : List Nat)
    (hsniff : ∀ m, sniff content = .ok m → ALLOWED_MIME_TYPES.contains m = false) :
    ∃ m, validate_file_content sniff (FS.write fs p content) p
      = .error (.validationError ("Error validating file content: " ++ m)) := by
  have hread : FS.read (FS.write fs p content) p = some content :=
    FS.read_write_self fs p content
  rcases hs : sniff content with e | m
  · refine ⟨e, ?_⟩
    unfold validate_file_content validate_file_content_inner
    simp only [hread, hs]
  · have hc := hsniff m hs
    refine ⟨"Invalid file content. File must be a valid image (JPEG or PNG)", ?_⟩
    unfold validate_file_content validate_file_content_inner
    simp only [hread, hs, hc]
    rfl

/-- No file exists at any probed path: the probe loop returns nothing. -/
theorem get_image_path_aux_none (fs : FS) (s : String) :
    ∀ l, (∀ ext, ext ∈ l → FS.read fs (probePath s ext) = none) →
      get_image_path_aux fs s l = none := by
  intro l
  induction l with
  | nil => intro _; rfl
  | cons a t ih =>
    intro h
    have hx : FS.pathExists fs (probePath s a) = false := by
      simp [FS.pathExists, h a (List.mem_cons_self a t)]
    unfold get_image_path_aux
    simp only [hx, Bool.false_eq_true, if_false]
    exact ih (fun e he => h e (List.mem_cons_of_mem a he))

/-- C1: if the extension and size checks pass but the written bytes fail
content sniffing, `save_image` surfaces a `ValidationError`, no file remains
at the destination path, and a subsequent `get_image_path` on the identifier
it would have used fails with `FileNotFoundError` (assuming a fresh
identifier: no pre-existing file at any probed path). -/
theorem save_image_rollback_resolve_fails
    (sniff : List Nat → Except String String) (image_id now filename : String)
    (content : List Nat) (fs : FS)
    (hext : validate_file_extension filename = .ok true)
    (hsize : validate_file_size content.length = .ok true)
    (hsniff : ∀ m, sniff content = .ok m → ALLOWED_MIME_TYPES.contains m = false)
    (hfresh : ∀ ext, ext ∈ probeExts → FS.read fs (probePath image_id ext) = none) :
    (∃ m, (save_image sniff image_id now none none filename content fs).1
        = .error (.validationError m))
    ∧ FS.read (save_image sniff image_id now none none filename content fs).2
        (UPLOAD_DIR ++ "/" ++ (image_id ++ strLower (pathSuffix filename))) = none
    ∧ get_image_path (save_image sniff image_id now none none filename content fs).2
        image_id = .error (.fileNotFoundError image_id) := by
  obtain ⟨m, hv⟩ := validate_file_content_write_fail sniff fs
    (UPLOAD_DIR ++ "/" ++ (image_id ++ strLower (pathSuffix filename))) content hsniff
  have hrun : save_image sniff image_id now none none filename content fs
      = (.error (.validationError ("Error validating file content: " ++ m)),
         FS.unlink
           (FS.write fs (UPLOAD_DIR ++ "/" ++ (image_id ++ strLower (pathSuffix filename))) content)
           (UPLOAD_DIR ++ "/" ++ (image_id ++ strLower (pathSuffix filename)))) := by
    simp [save_image, hext, hsize, hv, FS.pathExists, FS.read_write_self]
  refine ⟨⟨"Error validating file content: " ++ m, by rw [hrun]⟩, by rw [hrun]; exact FS.read_unlink_self _ _, ?_⟩
  rw [hrun]
  have hprobe : ∀ ext, ext ∈ probeExts →
      FS.read (FS.unlink
          (FS.write fs (UPLOAD_DIR ++ "/" ++ (image_id ++ strLower (pathSuffix filename))) content)
          (UPLOAD_DIR ++ "/" ++ (image_id ++ strLower (pathSuffix filename))))
        (probePath image_id ext) = none := by
    intro ext hmem
    by_cases he : probePath image_id ext
        = UPLOAD_DIR ++ "/" ++ (image_id ++ strLower (pathSuffix filename))
    · rw [he]
      exact FS.read_unlink_self _ _
    · rw [FS.read_unlink_ne _ (fun h => he h.symm),
          FS.read_write_ne _ (fun h => he h.symm)]
      exact hfresh ext hmem
  unfold get_image_path
  rw [get_image_path_aux_none _ _ _ hprobe]

/-- Closed instance of C1: a text file named `photo.jpg` is rejected and
leaves no file behind. -/
theorem save_image_rollback_resolve_fails_witness :
    (∃ m, (save_image sniffText "deadbeefdeadbeef" "t" none none "photo.jpg" [0, 1] []).1
        = .error (.validationError m))
    ∧ FS.read (save_image sniffText "deadbeefdeadbeef" "t" none none "photo.jpg" [0, 1] []).2
        (UPLOAD_DIR ++ "/" ++ ("deadbeefdeadbeef" ++ strLower (pathSuffix "photo.jpg"))) = none
    ∧ get_image_path (save_image sniffText "deadbeefdeadbeef" "t" none none "photo.jpg" [0, 1] []).2
        "deadbeefdeadbeef" = .error (.fileNotFoundError "deadbeefdeadbeef") :=
  save_image_rollback_resolve_fails sniffText "deadbeefdeadbeef" "t" "photo.jpg" [0, 1] []
    rfl rfl (fun m hm => by cases hm; decide) (fun ext _ => rfl)

/-! ## Claim C4 (corrected) -/

/-- Counterexample to C4 as stated: with a text file that fails content
sniffing and an unlink that fails with `Permission denied`, `save_image`
surfaces the unlink's `OSError`, not the original `ValidationError` — the
cleanup failure is not swallowed (an exception raised inside a Python
`except` block propagates). -/
theorem save_image_cleanup_failure_cex :
    (save_image sniffText "deadbeefdeadbeef" "t" none (some "Permission denied")
        "photo.jpg" [0, 1] []).1
      = .error (.osError "Permission denied")
    ∧ isValidationFailure
        (save_image sniffText "deadbeefdeadbeef" "t" none (some "Permission denied")
          "photo.jpg" [0, 1] []).1 = false := by
  constructor <;> rfl

/-- C4 amended: if, during rollback after a content-validation failure, the
unlink of the just-written file itself fails, the unlink's failure
propagates out of `save_image` and masks the original `ValidationError`;
the surfaced error is the cleanup `OSError`, not a `ValidationError`. -/
theorem save_image_cleanup_failure_masks
    (sniff : List Nat → Except String String) (image_id now filename e2 : String)
    (content : List Nat) (fs : FS)
    (hext : validate_file_extension filename = .ok true)
    (hsize : validate_file_size content.length = .ok true)
    (hsniff : ∀ m, sniff content = .ok m → ALLOWED_MIME_TYPES.contains m = false) :
    (save_image sniff image_id now none (some e2) filename content fs).1
      = .error (.osError e2)
    ∧ isValidationFailure
        (save_image sniff image_id now none (some e2) filename content fs).1 = false := by
  obtain ⟨m, hv⟩ := validate_file_content_write_fail sniff fs
    (UPLOAD_DIR ++ "/" ++ (image_id ++ strLower (pathSuffix filename))) content hsniff
  have hrun : (save_image sniff image_id now none (some e2) filename content fs).1
      = .error (.osError e2) := by
    simp [save_image, hext, hsize, hv, FS.pathExists, FS.read_write_self]
  exact ⟨hrun, by rw [hrun]; rfl⟩

/-- Closed instance of the amended C4. -/
theorem save_image_cleanup_failure_masks_witness :
    (save_image sniffText "feedfacefeedface" "t" none (some "Device or resource busy")
        "pic.PNG" [3] []).1
      = .error (.osError "Device or resource busy")
    ∧ isValidationFailure
        (save_image sniffText "feedfacefeedface" "t" none (some "Device or resource busy")
          "pic.PNG" [3] []).1 = false :=
  save_image_cleanup_failure_masks sniffText "feedfacefeedface" "t" "pic.PNG"
    "Device or resource busy" [3] [] rfl rfl (fun m hm => by cases hm; decide)


/-! ## Claim C3: string machinery -/

/-- Members of the run kept by `takeWhile (· ≠ '.')` are not dots. -/
theorem mem_takeWhile_ne_dot :
    ∀ (l : List Char), ∀ x ∈ l.takeWhile (fun c => decide (c ≠ '.')), x ≠ '.' := by
  intro l
  induction l with
  | nil =>
    intro x hx
    cases hx
  | cons a t ih =>
    intro x hx
    by_cases ha : a ≠ '.'
    · rw [List.takeWhile_cons_of_pos (by simpa using ha)] at hx
      rcases List.mem_cons.mp hx with rfl | hx2
      · exact ha
      · exact ih x hx2
    · rw [List.takeWhile_cons_of_neg (by simpa using ha)] at hx
      cases hx

/-- Lower-casing never produces a dot from a non-dot. -/
theorem toLower_ne_dot {c : Char} (hc : c ≠ '.') : c.toLower ≠ '.' := by
  intro h
  apply hc
  simp only [Char.toLower] at h
  split at h
  · rename_i hcond
    exfalso
    have h46 : (Char.ofNat (c.toNat + 32)).toNat = 46 := by rw [h]; rfl
    have hval : (c.toNat + 32).isValidChar := Or.inl (by omega)
    unfold Char.ofNat at h46
    rw [dif_pos hval] at h46
    have h32 : c.toNat + 32 = 46 := by
      simpa [Char.ofNatAux, Char.toNat, UInt32.toNat] using h46
    omega
  · exact h

/-- The suffix of a path is either empty or a dot followed by a nonempty
run of non-dot characters. -/
theorem pathSuffix_structure (s : String) :
    pathSuffix s = ""
    ∨ ∃ c cs, pathSuffix s = ⟨'.' :: c :: cs⟩ ∧ c ≠ '.' ∧ (∀ x, x ∈ cs → x ≠ '.') := by
  simp only [pathSuffix]
  split
  · exact Or.inl rfl
  · split
    · exact Or.inl rfl
    · split
      · exact Or.inl rfl
      · rename_i h1 h2 h3
        have hne : ((pathName s).data.reverse).takeWhile (fun c => decide (c ≠ '.')) ≠ [] := by
          intro hnil
          exact h2 (by rw [hnil]; rfl)
        have hner :
            (((pathName s).data.reverse).takeWhile (fun c => decide (c ≠ '.'))).reverse
              ≠ [] := by
          simpa using hne
        obtain ⟨c, cs, hccs⟩ := List.exists_cons_of_ne_nil hner
        refine Or.inr ⟨c, cs, by rw [hccs], ?_, ?_⟩
        · have hcmem : c ∈ (((pathName s).data.reverse).takeWhile
              (fun c => decide (c ≠ '.'))).reverse := by
            rw [hccs]
            exact List.mem_cons_self _ _
          exact mem_takeWhile_ne_dot _ c (List.mem_reverse.mp hcmem)
        · intro x hx
          have hxmem : x ∈ (((pathName s).data.reverse).takeWhile
              (fun c => decide (c ≠ '.'))).reverse := by
            rw [hccs]
            exact List.mem_cons_of_mem _ hx
          exact mem_takeWhile_ne_dot _ x (List.mem_reverse.mp hxmem)

/-- Paths probed for the same identifier with different extensions differ. -/
theorem probePath_ne {image_id e1 e2 : String} (h : e1 ≠ e2) :
    probePath image_id e1 ≠ probePath image_id e2 := by
  intro hp
  apply h
  have hd := congrArg String.data hp
  simp only [probePath, String.data_append] at hd
  exact String.ext (List.append_cancel_left (List.append_cancel_left hd))

/-- If the extension validator accepts a filename, the lower-cased suffix
used to build the destination path is one of the probed extensions. -/
theorem validate_ext_probe (f : String)
    (hext : validate_file_extension f = .ok true) :
    strLower (pathSuffix f) ∈ probeExts := by
  have hcont : ALLOWED_EXTENSIONS.contains
      (⟨(strLower (pathSuffix f)).data.dropWhile (fun c => c = '.')⟩ : String) = true := by
    by_cases hc : ALLOWED_EXTENSIONS.contains
        (⟨(strLower (pathSuffix f)).data.dropWhile (fun c => c = '.')⟩ : String) = true
    · exact hc
    · exfalso
      unfold validate_file_extension at hext
      rw [if_neg hc] at hext
      exact Except.noConfusion hext
  have hE : (⟨(strLower (pathSuffix f)).data.dropWhile (fun c => c = '.')⟩ : String) = "jpg"
      ∨ (⟨(strLower (pathSuffix f)).data.dropWhile (fun c => c = '.')⟩ : String) = "jpeg"
      ∨ (⟨(strLower (pathSuffix f)).data.dropWhile (fun c => c = '.')⟩ : String) = "png" := by
    simpa [ALLOWED_EXTENSIONS, List.contains] using hcont
  rcases pathSuffix_structure f with h0 | ⟨c, cs, hps, hc, _⟩
  · rw [h0] at hE
    simp [strLower] at hE
  · have hdot : Char.toLower '.' = '.' := by decide
    have hdrop : (strLower (pathSuffix f)).data.dropWhile (fun c => c = '.')
        = c.toLower :: cs.map Char.toLower := by
      rw [hps]
      show List.dropWhile (fun c => decide (c = '.'))
          (('.' :: c :: cs).map Char.toLower) = c.toLower :: cs.map Char.toLower
      simp only [List.map_cons, hdot]
      rw [List.dropWhile_cons_of_pos (by simp), List.dropWhile_cons_of_neg]
      simp [toLower_ne_dot hc]
    have hdata : (strLower (pathSuffix f)).data = '.' :: c.toLower :: cs.map Char.toLower := by
      rw [hps]
      show ('.' :: c :: cs).map Char.toLower = '.' :: c.toLower :: cs.map Char.toLower
      simp [hdot]
    rw [hdrop] at hE
    have hmk : strLower (pathSuffix f) = ⟨'.' :: c.toLower :: cs.map Char.toLower⟩ :=
      String.ext hdata
    rcases hE with hE | hE | hE
    · have hl : c.toLower :: cs.map Char.toLower = "jpg".data := congrArg String.data hE
      rw [hl] at hmk
      rw [hmk]
      decide
    · have hl : c.toLower :: cs.map Char.toLower = "jpeg".data := congrArg String.data hE
      rw [hl] at hmk
      rw [hmk]
      decide
    · have hl : c.toLower :: cs.map Char.toLower = "png".data := congrArg String.data hE
      rw [hl] at hmk
      rw [hmk]
      decide

/-! ## Claim C3 -/

/-- After writing a fresh image at one of the probed extensions, the probe
loop finds exactly that file. -/
theorem resolve_write_fresh (fs : FS) (image_id ext : String) (content : List Nat)
    (hmem : ext ∈ probeExts)
    (hfresh : ∀ e, e ∈ probeExts → FS.read fs (probePath image_id e) = none) :
    get_image_path (FS.write fs (probePath image_id ext) content) image_id
      = .ok (probePath image_id ext) := by
  have hself : FS.pathExists (FS.write fs (probePath image_id ext) content)
      (probePath image_id ext) = true := by
    simp [FS.pathExists, FS.read_write_self]
  have hother : ∀ e, e ∈ probeExts → e ≠ ext →
      FS.pathExists (FS.write fs (probePath image_id ext) content)
        (probePath image_id e) = false := by
    intro e he hne
    have hnep : probePath image_id ext ≠ probePath image_id e :=
      probePath_ne (fun h => hne h.symm)
    simp [FS.pathExists, FS.read_write_ne _ hnep, hfresh e he]
  fin_cases hmem
  · simp [get_image_path, get_image_path_aux, probeExts, hself]
  · simp [get_image_path, get_image_path_aux, probeExts, hself,
      hother ".jpg" (by decide) (by decide)]
  · simp [get_image_path, get_image_path_aux, probeExts, hself,
      hother ".jpg" (by decide) (by decide), hother ".jpeg" (by decide) (by decide)]

/-- C3: an accepted upload round-trips — `save_image` succeeds with the
expected metadata, `get_image_path` on the returned identifier yields the
destination path, and the bytes stored there are exactly the candidate's
original content (fresh identifier assumed: no pre-existing file at any
probed path). -/
theorem save_image_resolve_roundtrip
    (sniff : List Nat → Except String String) (image_id now filename : String)
    (content : List Nat) (fs : FS) (mime : String)
    (hext : validate_file_extension filename = .ok true)
    (hsize : validate_file_size content.length = .ok true)
    (hsniff : sniff content = .ok mime)
    (hmime : ALLOWED_MIME_TYPES.contains mime = true)
    (hfresh : ∀ ext, ext ∈ probeExts → FS.read fs (probePath image_id ext) = none) :
    (save_image sniff image_id now none none filename content fs).1
      = .ok { image_id := image_id, filename := filename, size := content.length,
              uploaded_at := now ++ "Z" }
    ∧ get_image_path (save_image sniff image_id now none none filename content fs).2
        image_id = .ok (probePath image_id (strLower (pathSuffix filename)))
    ∧ FS.read (save_image sniff image_id now none none filename content fs).2
        (probePath image_id (strLower (pathSuffix filename))) = some content := by
  have hv : validate_file_content sniff
      (FS.write fs (UPLOAD_DIR ++ "/" ++ (image_id ++ strLower (pathSuffix filename))) content)
      (UPLOAD_DIR ++ "/" ++ (image_id ++ strLower (pathSuffix filename))) = .ok (true, mime) := by
    unfold validate_file_content validate_file_content_inner
    simp only [FS.read_write_self, hsniff, hmime]
    rfl
  have hrun : save_image sniff image_id now none none filename content fs
      = (.ok { image_id := image_id, filename := filename, size := content.length,
               uploaded_at := now ++ "Z" },
         FS.write fs (UPLOAD_DIR ++ "/" ++ (image_id ++ strLower (pathSuffix filename)))
           content) := by
    simp [save_image, hext, hsize, hv]
  have hrunP : save_image sniff image_id now none none filename content fs
      = (.ok { image_id := image_id, filename := filename, size := content.length,
               uploaded_at := now ++ "Z" },
         FS.write fs (probePath image_id (strLower (pathSuffix filename))) content) := hrun
  refine ⟨by rw [hrunP], ?_, ?_⟩
  · rw [hrunP]
    exact resolve_write_fresh fs image_id (strLower (pathSuffix filename)) content
      (validate_ext_probe filename hext) hfresh
  · rw [hrunP]
    exact FS.read_write_self fs _ content

/-- Closed instance of C3: a PNG upload round-trips byte-identically. -/
theorem save_image_resolve_roundtrip_witness :
    (save_image sniffPng "0123456789abcdef" "t" none none "photo.png" [1, 2, 3] []).1
      = .ok { image_id := "0123456789abcdef", filename := "photo.png", size := 3,
              uploaded_at := "t" ++ "Z" }
    ∧ get_image_path (save_image sniffPng "0123456789abcdef" "t" none none
          "photo.png" [1, 2, 3] []).2 "0123456789abcdef"
        = .ok (probePath "0123456789abcdef" (strLower (pathSuffix "photo.png")))
    ∧ FS.read (save_image sniffPng "0123456789abcdef" "t" none none
          "photo.png" [1, 2, 3] []).2
        (probePath "0123456789abcdef" (strLower (pathSuffix "photo.png")))
        = some [1, 2, 3] :=
  save_image_resolve_roundtrip sniffPng "0123456789abcdef" "t" "photo.png" [1, 2, 3] []
    "image/png" rfl rfl rfl (by decide) (fun ext _ => rfl)

/-! ## Claim C5: sampling machinery -/

/-- One pool step of `Random.sample`: picking slot `j` and moving the last
live element into the vacancy is, together with the picked element, a
permutation of the live region. -/
theorem sampleStep_perm {α : Type} (d : α) :
    ∀ (l : List α) (j : Nat), j < l.length →
      List.Perm ((l.getD j d) :: ((l.set j (l.getD (l.length - 1) d)).dropLast)) l := by
  intro l
  induction l with
  | nil =>
    intro j hj
    cases hj
  | cons a t ih =>
    intro j hj
    cases j with
    | zero =>
      cases t with
      | nil =>
        simp
      | cons b t2 =>
        have htne : (b :: t2) ≠ ([] : List α) := by simp
        have hlast : (a :: b :: t2).getD ((a :: b :: t2).length - 1) d
            = (b :: t2).getLast htne := by
          have h1 : (a :: b :: t2).length - 1 = t2.length + 1 := by simp
          rw [h1]
          show (b :: t2).getD t2.length d = (b :: t2).getLast htne
          rw [List.getD_eq_getElem?_getD, List.getElem?_eq_getElem (by simp),
            List.getLast_eq_getElem]
          simp
        rw [hlast]
        show List.Perm (a :: (((b :: t2).getLast htne :: b :: t2).dropLast)) (a :: b :: t2)
        refine List.Perm.cons a ?_
        rw [List.dropLast_cons_of_ne_nil htne]
        calc List.Perm ((b :: t2).getLast htne :: (b :: t2).dropLast)
              ((b :: t2).dropLast ++ [(b :: t2).getLast htne]) :=
                (List.perm_append_singleton _ _).symm
          _ = (b :: t2) := by rw [List.dropLast_append_getLast htne]
    | succ j =>
      cases t with
      | nil =>
        exact absurd hj (by simp)
      | cons b t2 =>
        have hjt : j < (b :: t2).length := by
          simpa using Nat.lt_of_succ_lt_succ hj
        have hx : (a :: b :: t2).getD ((a :: b :: t2).length - 1) d
            = (b :: t2).getD ((b :: t2).length - 1) d := by
          have h1 : (a :: b :: t2).length - 1 = t2.length + 1 := by simp
          rw [h1]
          show (b :: t2).getD t2.length d = (b :: t2).getD ((b :: t2).length - 1) d
          simp
        rw [hx]
        show List.Perm ((b :: t2).getD j d ::
            ((a :: (b :: t2).set j ((b :: t2).getD ((b :: t2).length - 1) d)).dropLast))
          (a :: b :: t2)
        have hsetne : (b :: t2).set j ((b :: t2).getD ((b :: t2).length - 1) d) ≠ [] := by
          intro hcon
          have := congrArg List.length hcon
          simp at this
        rw [List.dropLast_cons_of_ne_nil hsetne]
        exact List.Perm.trans (List.Perm.swap a _ _) (List.Perm.cons a (ih j hjt))

/-- The sample of `k` elements is duplicate-free, drawn from the live pool,
and has length exactly `k`, provided every draw respects its bound. -/
theorem pySampleAux_spec (rb : RandBelow)
    (hrb : ∀ i n, 0 < n → rb i n < n) :
    ∀ (k idx : Nat) (live : List String), k ≤ live.length → live.Nodup →
      (pySampleAux rb idx k live).Nodup
      ∧ (∀ x, x ∈ pySampleAux rb idx k live → x ∈ live)
      ∧ (pySampleAux rb idx k live).length = k := by
  intro k
  induction k with
  | zero =>
    intro idx live _ _
    exact ⟨List.nodup_nil, fun x hx => absurd hx (List.not_mem_nil x), rfl⟩
  | succ k ih =>
    intro idx live hk hnd
    have hpos : 0 < live.length := Nat.lt_of_lt_of_le (Nat.succ_pos k) hk
    have hj : rb idx live.length < live.length := hrb idx live.length hpos
    have hperm := sampleStep_perm "" live (rb idx live.length) hj
    have hndc : (live.getD (rb idx live.length) "" ::
        (live.set (rb idx live.length) (live.getD (live.length - 1) "")).dropLast).Nodup :=
      (hperm.nodup_iff).mpr hnd
    have hpick : live.getD (rb idx live.length) ""
        ∉ (live.set (rb idx live.length) (live.getD (live.length - 1) "")).dropLast :=
      (List.nodup_cons.mp hndc).1
    have hndnew : ((live.set (rb idx live.length) (live.getD (live.length - 1) "")).dropLast).Nodup :=
      (List.nodup_cons.mp hndc).2
    have hlennew : ((live.set (rb idx live.length) (live.getD (live.length - 1) "")).dropLast).length
        = live.length - 1 := by
      simp
    have hk' : k ≤ ((live.set (rb idx live.length) (live.getD (live.length - 1) "")).dropLast).length := by
      omega
    obtain ⟨ihnd, ihmem, ihlen⟩ := ih (idx + 1)
      ((live.set (rb idx live.length) (live.getD (live.length - 1) "")).dropLast) hk' hndnew
    have heq : pySampleAux rb idx (k + 1) live
        = live.getD (rb idx live.length) "" ::
            pySampleAux rb (idx + 1) k
              ((live.set (rb idx live.length) (live.getD (live.length - 1) "")).dropLast) := rfl
    rw [heq]
    refine ⟨List.nodup_cons.mpr ⟨fun hmem => hpick (ihmem _ hmem), ihnd⟩, ?_,
      by rw [List.length_cons, ihlen]⟩
    intro x hx
    rcases List.mem_cons.mp hx with rfl | hx2
    · exact hperm.subset (List.mem_cons_self _ _)
    · exact hperm.subset (List.mem_cons_of_mem _ (ihmem x hx2))

/-- Insertion keeps the list a permutation of the cons. -/
theorem insertLe_perm (a : String) (l : List String) :
    List.Perm (insertLe a l) (a :: l) := by
  induction l with
  | nil => exact List.Perm.refl _
  | cons b t ih =>
    unfold insertLe
    by_cases h : a ≤ b
    · rw [if_pos h]
    · rw [if_neg h]
      exact List.Perm.trans (ih.cons b) (List.Perm.swap a b t)

/-- `sortLe` permutes its input. -/
theorem sortLe_perm (l : List String) : List.Perm (sortLe l) l := by
  induction l with
  | nil => exact List.Perm.refl _
  | cons a t ih => exact (insertLe_perm a (sortLe t)).trans (ih.cons a)

/-- Insertion preserves sortedness. -/
theorem insertLe_sorted (a : String) (l : List String)
    (h : l.Pairwise (· ≤ ·)) : (insertLe a l).Pairwise (· ≤ ·) := by
  induction l with
  | nil => simp [insertLe]
  | cons b t ih =>
    obtain ⟨hb, ht⟩ := List.pairwise_cons.mp h
    unfold insertLe
    by_cases hab : a ≤ b
    · rw [if_pos hab]
      refine List.pairwise_cons.mpr ⟨?_, h⟩
      intro x hx
      rcases List.mem_cons.mp hx with rfl | hxt
      · exact hab
      · exact le_trans hab (hb x hxt)
    · rw [if_neg hab]
      have hba : b ≤ a := le_of_not_le hab
      refine List.pairwise_cons.mpr ⟨?_, ih ht⟩
      intro x hx
      rcases List.mem_cons.mp ((insertLe_perm a t).mem_iff.mp hx) with rfl | hxt
      · exact hba
      · exact hb x hxt

/-- `sortLe` sorts. -/
theorem sortLe_sorted (l : List String) : (sortLe l).Pairwise (· ≤ ·) := by
  induction l with
  | nil => exact List.Pairwise.nil
  | cons a t ih => exact insertLe_sorted a (sortLe t) ih

/-! ## Claim C5 -/

/-- C5: for an opened image, the issues list has exactly `1 + (seed mod 3)`
elements (1, 2 or 3), all distinct, all members of the fixed 8-element issue
enumeration, sorted lexicographically; and the recommendations are exactly
one table lookup per issue, in the same order. -/
theorem analyze_issues_structure (fam : GenFamily) (hfam : GoodFamily fam)
    (now image_path : String) (w h : Nat) :
    (analyze_image fam now image_path (some (w, h))).issues.length = 1 + (w + h) % 3
    ∧ 1 ≤ (analyze_image fam now image_path (some (w, h))).issues.length
    ∧ (analyze_image fam now image_path (some (w, h))).issues.length ≤ 3
    ∧ (analyze_image fam now image_path (some (w, h))).issues.Nodup
    ∧ (∀ x, x ∈ (analyze_image fam now image_path (some (w, h))).issues → x ∈ ISSUES)
    ∧ (analyze_image fam now image_path (some (w, h))).issues.Pairwise (· ≤ ·)
    ∧ (analyze_image fam now image_path (some (w, h))).recommendations
        = (analyze_image fam now image_path (some (w, h))).issues.map
            (fun i => (recOf i).getD "")
    ∧ (∀ x, x ∈ (analyze_image fam now image_path (some (w, h))).issues →
        (recOf x).isSome = true) := by
  have hissues : (analyze_image fam now image_path (some (w, h))).issues
      = sortLe (pySampleAux (fam (w + h)) 1 (1 + (w + h) % 3) ISSUES) := rfl
  have hmod : (w + h) % 3 < 3 := Nat.mod_lt (w + h) (by norm_num)
  have hk : 1 + (w + h) % 3 ≤ ISSUES.length := by
    have h8 : ISSUES.length = 8 := by decide
    omega
  have hnd8 : ISSUES.Nodup := by decide
  obtain ⟨hnd, hmem, hlen⟩ := pySampleAux_spec (fam (w + h))
    (fun i n hn => hfam (w + h) i n hn) (1 + (w + h) % 3) 1 ISSUES hk hnd8
  have hperm := sortLe_perm (pySampleAux (fam (w + h)) 1 (1 + (w + h) % 3) ISSUES)
  have hlensort : (analyze_image fam now image_path (some (w, h))).issues.length
      = 1 + (w + h) % 3 := by
    rw [hissues, hperm.length_eq, hlen]
  have hall : ∀ x, x ∈ ISSUES → (recOf x).isSome = true := by decide
  refine ⟨hlensort, by omega, by omega, ?_, ?_, ?_, rfl, ?_⟩
  · rw [hissues]
    exact hperm.nodup_iff.mpr hnd
  · intro x hx
    rw [hissues] at hx
    exact hmem x (hperm.mem_iff.mp hx)
  · rw [hissues]
    exact sortLe_sorted _
  · intro x hx
    rw [hissues] at hx
    exact hall x (hmem x (hperm.mem_iff.mp hx))

theorem analyze_issues_structure_witness :
    GoodFamily famDemo
    ∧ (analyze_image famDemo "t" "a.jpg" (some (700, 700))).issues.length
        = 1 + (700 + 700) % 3 :=
  ⟨famDemo_good, (analyze_issues_structure famDemo famDemo_good "t" "a.jpg" 700 700).1⟩
